import Mathlib

/-!
# Raft gRPC transport (transport.go): shallow embedding and verified properties

The embedding follows `transport.go` function by function.

* Machine integers (`uint64` terms and indices) are natural numbers; no arithmetic is
  performed on them by the transport, only comparisons with zero.
* A Go byte slice that is compared with `nil` is an `Option (List Byte)`: `none` is the
  nil slice, `some bs` a non-nil slice (possibly of length zero).
* Channels, the cancellation scope and the network are explicit environment values or
  explicit queues in a state type; every `select` is resolved by an explicit choice.
* Helpers that live outside `transport.go` (wire conversion `ToRaft`, `CopyToRaft`,
  `New...Request`, the generated stream types) are parameters of the embedding.
-/

namespace RaftGrpc

/-! ## Data model -/

abbrev Byte := Nat

/-- Connection handle of a peer (a `RaftServiceClient` value), identified by a number. -/
abbrev Client := Nat

/-- Heartbeat callback (a `func(rpc raft.RPC)` value), identified by a number. -/
abbrev Handler := Nat

/-- Error values that `transport.go` returns or forwards. -/
inductive TransportError where
  /-- Value built by `errors.Errorf("no connection to peer is available: %s", target)`. -/
  | noConnection (target : String)
  /-- Value `context.Canceled`. -/
  | canceled
  /-- Value built by `errors.New(msg.Error)` from a pipeline response frame. -/
  | remote (msg : String)
  /-- Value `io.EOF`. -/
  | eof
  /-- Any error value produced by a collaborator (stream, engine, data source). -/
  | external (tag : String)
deriving DecidableEq, Repr

deriving instance DecidableEq for Except

/-- Wire form of an AppendEntries request: the fields read by the dispatcher. -/
structure AppendEntriesRequest where
  Term : Nat
  Leader : Option (List Byte)
  PrevLogEntry : Nat
  PrevLogTerm : Nat
  Entries : List (List Byte)
  LeaderCommitIndex : Nat
deriving DecidableEq, Repr

/-- Length of a Go byte slice; the nil slice has length zero. -/
def sliceLen : Option (List Byte) → Nat
  | none => 0
  | some bs => bs.length

/-- The transport object: peer map, local id and heartbeat callback. -/
structure RaftGRPCTransport where
  peers : List (String × Client)
  localId : String
  heartbeatHandler : Option Handler
deriving DecidableEq, Repr

/-- Constructor `NewTransport`: empty peer map, no heartbeat callback. -/
def NewTransport (localId : String) : RaftGRPCTransport :=
  { peers := [], localId := localId, heartbeatHandler := none }

/-! ## Peer registry (`getPeerClient`, `AddPeer`, `RemovePeer`) -/

/-- Map read `t.peers[target]` with the comma-ok form. -/
def RaftGRPCTransport.getPeerClient (t : RaftGRPCTransport) (target : String) :
    Except TransportError Client :=
  match t.peers.lookup target with
  | none => .error (.noConnection target)
  | some client => .ok client

/-- Map write `t.peers[id] = peerConn`. -/
def RaftGRPCTransport.AddPeer (t : RaftGRPCTransport) (id : String) (peerConn : Client) :
    RaftGRPCTransport :=
  { t with peers := (id, peerConn) :: t.peers.filter (fun p => p.1 != id) }

/-- Map delete `delete(t.peers, id)`. -/
def RaftGRPCTransport.RemovePeer (t : RaftGRPCTransport) (id : String) : RaftGRPCTransport :=
  { t with peers := t.peers.filter (fun p => p.1 != id) }

/-- Setter `SetHeartbeatHandler`. -/
def RaftGRPCTransport.SetHeartbeatHandler (t : RaftGRPCTransport) (cb : Option Handler) :
    RaftGRPCTransport :=
  { t with heartbeatHandler := cb }

/-- One registry mutation. -/
inductive RegistryOp where
  | add (id : String) (peerConn : Client)
  | remove (id : String)
deriving DecidableEq, Repr

def RegistryOp.apply (t : RaftGRPCTransport) : RegistryOp → RaftGRPCTransport
  | .add id c => t.AddPeer id c
  | .remove id => t.RemovePeer id

/-- Run a sequence of registry mutations, oldest first. -/
def applyOps (t : RaftGRPCTransport) : List RegistryOp → RaftGRPCTransport
  | [] => t
  | op :: ops => applyOps (op.apply t) ops

/-- Finite-map reading of a mutation sequence (specification side): the effect on `id` of the
most recent operation that names `id`; `none` when no operation names it, `some none` when
the most recent one is a removal, `some (some c)` when it is an addition of `c`. -/
def lastWrite (id : String) : List RegistryOp → Option (Option Client)
  | [] => none
  | .add k c :: ops =>
    match lastWrite id ops with
    | some w => some w
    | none => if k = id then some (some c) else none
  | .remove k :: ops =>
    match lastWrite id ops with
    | some w => some w
    | none => if k = id then some none else none

/-! ## Heartbeat classification (server side `AppendEntriesPipeline`, lines 389-391) -/

/-- The `isHeartbeat` expression of the pipelined dispatcher. -/
def isHeartbeat (call : AppendEntriesRequest) : Bool :=
  call.Term != 0 && call.Leader != none &&
    call.PrevLogEntry == 0 && call.PrevLogTerm == 0 &&
    call.Entries.length == 0 && call.LeaderCommitIndex == 0

/-- Heartbeat test in the words of the specification: non-zero term, non-empty leader
identifier, zero previous-log index and term, no entries, zero leader-commit index. -/
def heartbeatPerSpec (call : AppendEntriesRequest) : Bool :=
  call.Term != 0 && sliceLen call.Leader != 0 &&
    call.PrevLogEntry == 0 && call.PrevLogTerm == 0 &&
    call.Entries.length == 0 && call.LeaderCommitIndex == 0

/-! ## Unary call issuer (client side `AppendEntries`, `RequestVote`, `TimeoutNow`) -/

/-- Collaborators of one unary call kind: `A` is the engine request type, `Q` the wire
request, `W` the wire response and `R` the response structure of the caller. -/
structure UnaryEnv (A Q W R : Type) where
  /-- Conversion `New...Request(args)`. -/
  toWire : A → Q
  /-- The remote call `client.X(t.ctx, req)` on a connection handle. -/
  invoke : Client → Q → Except TransportError W
  /-- Method `res.CopyToRaft(resp)`: the response structure after the copy. -/
  CopyToRaft : W → R → R

/-- What a unary call did: the returned error, the network calls issued (handle and wire
request, in order) and the response structure of the caller afterwards. -/
structure UnaryResult (Q R : Type) where
  err : Option TransportError
  issued : List (Client × Q)
  resp : R
deriving DecidableEq, Repr

/-- Shared body of the three unary calls once the lookup key is fixed. -/
def unaryCall {A Q W R : Type} (t : RaftGRPCTransport) (env : UnaryEnv A Q W R)
    (key : String) (args : A) (resp : R) : UnaryResult Q R :=
  match t.getPeerClient key with
  | .error err => { err := some err, issued := [], resp := resp }
  | .ok client =>
    match env.invoke client (env.toWire args) with
    | .error err => { err := some err, issued := [(client, env.toWire args)], resp := resp }
    | .ok res =>
      { err := none, issued := [(client, env.toWire args)], resp := env.CopyToRaft res resp }

/-- Client call `AppendEntries(target, addr, args, resp)`: the lookup key is `string(addr)`. -/
def RaftGRPCTransport.AppendEntries {A Q W R : Type} (t : RaftGRPCTransport)
    (env : UnaryEnv A Q W R) (_target : String) (addr : String) (args : A) (resp : R) :
    UnaryResult Q R :=
  unaryCall t env addr args resp

/-- Client call `RequestVote(id, addr, args, resp)`: the lookup key is `string(id)`. -/
def RaftGRPCTransport.RequestVote {A Q W R : Type} (t : RaftGRPCTransport)
    (env : UnaryEnv A Q W R) (id : String) (_addr : String) (args : A) (resp : R) :
    UnaryResult Q R :=
  unaryCall t env id args resp

/-- Client call `TimeoutNow(target, addr, args, resp)`: the lookup key is `string(addr)`. -/
def RaftGRPCTransport.TimeoutNow {A Q W R : Type} (t : RaftGRPCTransport)
    (env : UnaryEnv A Q W R) (_target : String) (addr : String) (args : A) (resp : R) :
    UnaryResult Q R :=
  unaryCall t env addr args resp

/-! ## Snapshot transfer -/

/-- One frame of the snapshot stream: a header carrying the request, a data chunk, or a
frame without payload. -/
inductive InstallSnapshotStream (Q : Type) where
  | Request (r : Q)
  | Data (d : List Byte)
  | NoPayload
deriving DecidableEq, Repr

/-- Generated getter `GetRequest`: the request of a header frame, nil otherwise. -/
def InstallSnapshotStream.GetRequest {Q : Type} : InstallSnapshotStream Q → Option Q
  | .Request r => some r
  | _ => none

/-- Generated getter `GetData`: the bytes of a data frame, nil (no bytes) otherwise. -/
def InstallSnapshotStream.GetData {Q : Type} : InstallSnapshotStream Q → List Byte
  | .Data d => d
  | _ => []

/-- Server-side byte source over the snapshot stream. Field `s` is the receiving stream:
the frames it still delivers, after which every `Recv` fails with `recvErr`. -/
structure snapshotReader (Q : Type) where
  s : List (InstallSnapshotStream Q)
  recvErr : TransportError
  leftOver : List Byte
deriving DecidableEq, Repr

/-- Result of one `Read`: the bytes copied into the buffer (their number is the returned
count) and the returned error. -/
structure ReadResult where
  bytes : List Byte
  err : Option TransportError
deriving DecidableEq, Repr

/-- Method `snapshotReader.Read(b)` for a buffer of length `blen`; `copy(b, x)` copies
`min (len b) (len x)` bytes. -/
def snapshotReader.Read {Q : Type} (r : snapshotReader Q) (blen : Nat) :
    ReadResult × snapshotReader Q :=
  if r.leftOver.length > 0 then
    let n := min blen r.leftOver.length
    ({ bytes := r.leftOver.take n, err := none }, { r with leftOver := r.leftOver.drop n })
  else
    match r.s with
    | [] => ({ bytes := [], err := some r.recvErr }, r)
    | x :: rest =>
      let d := x.GetData
      let n := min blen d.length
      ({ bytes := d.take n, err := none },
        { r with s := rest, leftOver := if n < d.length then d.drop n else r.leftOver })

/-- Successive `Read` calls with buffers of the given lengths, stopping at the first error:
the bytes obtained, the first error if one occurred, and the reader afterwards. -/
def readUntilError {Q : Type} (r : snapshotReader Q) :
    List Nat → List Byte × Option TransportError × snapshotReader Q
  | [] => ([], none, r)
  | blen :: rest =>
    match (r.Read blen).1.err with
    | some e => ((r.Read blen).1.bytes, some e, (r.Read blen).2)
    | none =>
      let out := readUntilError (r.Read blen).2 rest
      ((r.Read blen).1.bytes ++ out.1, out.2.1, out.2.2)

/-- Bytes a reader still has to hand out: the leftover, then the data of the frames. -/
def snapshotReader.pending {Q : Type} (r : snapshotReader Q) : List Byte :=
  r.leftOver ++ (r.s.map InstallSnapshotStream.GetData).flatten

/-- The reader `&snapshotReader{s, nil}` over a stream that delivers the given data chunks
and then fails with `recvErr`. -/
def chunkReader (Q : Type) (chunks : List (List Byte)) (recvErr : TransportError) :
    snapshotReader Q :=
  { s := chunks.map .Data, recvErr := recvErr, leftOver := [] }

/-- Result of one `data.Read(buf[:])` of the snapshot source: the bytes placed in the
buffer and the returned error (nil, `io.EOF`, or a failure). -/
structure ReadStep where
  data : List Byte
  err : Option TransportError
deriving DecidableEq, Repr

/-- Collaborators of the client-side snapshot transfer. -/
structure SnapshotClientEnv (A Q W R : Type) where
  /-- Conversion `NewInstallSnapshotRequest(args)`, which may fail. -/
  NewInstallSnapshotRequest : A → Except TransportError Q
  /-- Opening the stream, `client.InstallSnapshot(t.ctx)`: the error, if any. -/
  openErr : Client → Option TransportError
  /-- Error of the `k`-th `Send` on the stream (counted from zero), if any. -/
  sendErr : Nat → Option TransportError
  /-- Result of `CloseAndRecv`. -/
  closeAndRecv : Except TransportError W
  CopyToRaft : W → R → R

/-- What the client-side transfer did: returned error, frames sent (in order), number of
`CloseAndRecv` calls, and the response structure of the caller afterwards. -/
structure SnapshotClientResult (Q R : Type) where
  err : Option TransportError
  sent : List (InstallSnapshotStream Q)
  closes : Nat
  resp : R
deriving DecidableEq, Repr

/-- The `for` loop of the client-side `InstallSnapshot`. The argument list holds the
results of the successive `data.Read(buf[:])` calls still to come; a source whose list is
used up reports `(0, io.EOF)`. `k` counts the sends already made. The result is the data
frames sent by the loop and the error that aborted it, if any. -/
def snapshotSendLoop {Q : Type} (sendErr : Nat → Option TransportError) (k : Nat) :
    List ReadStep → List (InstallSnapshotStream Q) × Option TransportError
  | [] => ([], none)
  | st :: rest =>
    match st.err with
    | some e => if e = .eof then ([], none) else ([], some e)
    | none =>
      match sendErr k with
      | some e => ([], some e)
      | none =>
        let out := snapshotSendLoop sendErr (k + 1) rest
        (InstallSnapshotStream.Data st.data :: out.1, out.2)

/-- Client call `InstallSnapshot(target, addr, args, resp, data)`. -/
def RaftGRPCTransport.InstallSnapshot {A Q W R : Type} (t : RaftGRPCTransport)
    (env : SnapshotClientEnv A Q W R) (target : String) (_addr : String) (args : A) (resp : R)
    (data : List ReadStep) : SnapshotClientResult Q R :=
  match t.getPeerClient target with
  | .error err => { err := some err, sent := [], closes := 0, resp := resp }
  | .ok client =>
    match env.NewInstallSnapshotRequest args with
    | .error err => { err := some err, sent := [], closes := 0, resp := resp }
    | .ok ssr =>
      match env.openErr client with
      | some err => { err := some err, sent := [], closes := 0, resp := resp }
      | none =>
        match env.sendErr 0 with
        | some err => { err := some err, sent := [], closes := 0, resp := resp }
        | none =>
          match snapshotSendLoop env.sendErr 1 data with
          | (frames, some err) =>
            { err := some err, sent := .Request ssr :: frames, closes := 0, resp := resp }
          | (frames, none) =>
            match env.closeAndRecv with
            | .error err =>
              { err := some err, sent := .Request ssr :: frames, closes := 1, resp := resp }
            | .ok res =>
              { err := none, sent := .Request ssr :: frames, closes := 1,
                resp := env.CopyToRaft res resp }

/-- Bytes a snapshot source produces up to end-of-stream (specification side): the bytes of
every read up to and including the first read that reports an error. -/
def sourceBytes : List ReadStep → List Byte
  | [] => []
  | st :: rest =>
    match st.err with
    | some _ => st.data
    | none => st.data ++ sourceBytes rest

/-- Payload bytes of the data frames of a frame list, in order. -/
def dataBytes {Q : Type} (frames : List (InstallSnapshotStream Q)) : List Byte :=
  (frames.map InstallSnapshotStream.GetData).flatten

/-! ## Inbound dispatcher (server side) -/

/-- Response delivered by the engine on the response slot of a request. `Response` is nil
(`none`) or a value of the response type of the call. -/
structure RPCResponse (R : Type) where
  Response : Option R
  Error : Option TransportError
deriving DecidableEq, Repr

/-- How the two `select` statements of `processRpc` resolve for one call. -/
structure DispatchEnv (R : Type) where
  /-- First select: true when the send on the shared channel is taken, false when the
  cancellation branch is taken. -/
  accepted : Bool
  /-- Second select: the response read from the slot, or `none` when the cancellation
  branch is taken. -/
  reply : Option (RPCResponse R)

/-- Observable actions of the dispatcher, in order. -/
inductive ServerEvent (C Q W : Type) where
  /-- The call `hh(rpc)` of the heartbeat callback. -/
  | heartbeat (hh : Handler) (cmd : C)
  /-- The send `t.rpcCh <- rpc` with the command and the reader of the request. -/
  | published (cmd : C) (rdr : Option (snapshotReader Q))
  /-- The `go func(respCh)` statement: a response task for the command. -/
  | spawnedResponder (cmd : C)
  /-- The call `s.SendAndClose(w)`. -/
  | sentAndClosed (w : W)
deriving DecidableEq, Repr

/-- How a handler ends: it returns (an error or nil, and a value where it has one), or a
nil dereference or failed type assertion panics. -/
inductive ServerOutcome (V : Type) where
  | panicked
  | returned (value : Option V) (err : Option TransportError)
deriving DecidableEq, Repr

/-- Method `processRpc(req, rdr)`. `ToRaft` is the conversion method of the request type
`X`; it yields `none` where calling it panics. -/
def raftGrpcTransportServer.processRpc {X C Q W R : Type} (ToRaft : X → Option C)
    (env : DispatchEnv R) (req : X) (rdr : Option (snapshotReader Q)) :
    List (ServerEvent C Q W) × ServerOutcome R :=
  match ToRaft req with
  | none => ([], .panicked)
  | some cmd =>
    if env.accepted then
      match env.reply with
      | none => ([.published cmd rdr], .returned none (some .canceled))
      | some res => ([.published cmd rdr], .returned res.Response res.Error)
    else ([], .returned none (some .canceled))

/-- Unary server handler `AppendEntries(ctx, req)`; `New` is `NewAppendEntriesResponse`.
The heartbeat callback of the transport `t` is not consulted. -/
def raftGrpcTransportServer.AppendEntries {C Q W R : Type} (_t : RaftGRPCTransport)
    (ToRaft : AppendEntriesRequest → Option C) (New : R → W) (env : DispatchEnv R)
    (req : AppendEntriesRequest) : List (ServerEvent C Q W) × ServerOutcome W :=
  match raftGrpcTransportServer.processRpc ToRaft env req none with
  | (ev, .panicked) => (ev, .panicked)
  | (ev, .returned ri err) =>
    match err with
    | some e => (ev, .returned none (some e))
    | none =>
      match ri with
      | none => (ev, .panicked)
      | some r => (ev, .returned (some (New r)) none)

/-- Streamed server handler `AppendEntriesPipeline(s)`. The argument list holds the calls
the stream still delivers, each with the resolution of its `select` (true: the send on the
shared channel is taken; false: the cancellation branch); after them `Recv` fails with
`recvErr`. -/
def raftGrpcTransportServer.AppendEntriesPipeline {C Q W : Type} (t : RaftGRPCTransport)
    (ToRaft : AppendEntriesRequest → Option C) (recvErr : TransportError) :
    List (AppendEntriesRequest × Bool) → List (ServerEvent C Q W) × ServerOutcome Unit
  | [] => ([], .returned none (some recvErr))
  | (call, accepted) :: rest =>
    match ToRaft call with
    | none => ([], .panicked)
    | some cmd =>
      let hh : Option Handler := if isHeartbeat call then t.heartbeatHandler else none
      match hh with
      | some h => ([.heartbeat h cmd], .returned none none)
      | none =>
        if accepted then
          let out := raftGrpcTransportServer.AppendEntriesPipeline t ToRaft recvErr rest
          (.published cmd none :: .spawnedResponder cmd :: out.1, out.2)
        else ([], .returned none (some .canceled))

/-- Streamed server handler `InstallSnapshot(s)`. The stream delivers `frames` and then
fails with `recvErr`; `New` is `NewInstallSnapshotResponse`; `sendAndClose` gives the error
of `SendAndClose`, if any. -/
def raftGrpcTransportServer.InstallSnapshot {C Q W R : Type} (ToRaft : Option Q → Option C)
    (New : R → W) (sendAndClose : W → Option TransportError) (env : DispatchEnv R)
    (frames : List (InstallSnapshotStream Q)) (recvErr : TransportError) :
    List (ServerEvent C Q W) × ServerOutcome Unit :=
  match frames with
  | [] => ([], .returned none (some recvErr))
  | req :: rest =>
    match raftGrpcTransportServer.processRpc ToRaft env req.GetRequest
        (some { s := rest, recvErr := recvErr, leftOver := [] }) with
    | (ev, .panicked) => (ev, .panicked)
    | (ev, .returned ri err) =>
      match err with
      | some e => (ev, .returned none (some e))
      | none =>
        match ri with
        | none => (ev, .panicked)
        | some r => (ev ++ [.sentAndClosed (New r)], .returned none (sendAndClose (New r)))

/-! ## Concrete collaborators used to evaluate the embedding on explicit inputs -/

/-- Length of the buffer `var buf [4096]byte` of the client-side snapshot loop. -/
def snapshotBufLen : Nat := 4096

/-- A unary environment over numbers: the peer behind handle `c` answers request `q` with
`c + q`, and the copy overwrites the response structure. -/
def sampleUnaryEnv : UnaryEnv Nat Nat Nat Nat :=
  { toWire := fun a => a, invoke := fun c q => .ok (c + q), CopyToRaft := fun w _ => w }

/-- A snapshot environment in which nothing fails and the peer answers `1`. -/
def sampleSnapshotEnv : SnapshotClientEnv Nat Nat Nat Nat :=
  { NewInstallSnapshotRequest := fun a => .ok a, openErr := fun _ => none,
    sendErr := fun _ => none, closeAndRecv := .ok 1, CopyToRaft := fun w _ => w }

/-- A conversion of the snapshot request built on nil-safe getters: a nil request converts
to the zero-valued command. -/
def ToRaftNilSafe : Option Nat → Option Nat
  | none => some 0
  | some q => some q

/-- A conversion of the snapshot request that dereferences its receiver: a nil request
panics. -/
def ToRaftNilPanics : Option Nat → Option Nat
  | none => none
  | some q => some q

/-- An engine that accepts the request and answers it with response `1` and no error. -/
def sampleDispatchEnv : DispatchEnv Nat :=
  { accepted := true, reply := some { Response := some 1, Error := none } }

/-- A request shaped like a heartbeat whose leader field is a non-nil slice of length 0. -/
def emptyLeaderRequest : AppendEntriesRequest :=
  { Term := 5, Leader := some [], PrevLogEntry := 0, PrevLogTerm := 0, Entries := [],
    LeaderCommitIndex := 0 }

/-- The heartbeat-shaped request of the specification: term 5, leader "L1". -/
def sampleHeartbeat : AppendEntriesRequest :=
  { Term := 5, Leader := some [76, 49], PrevLogEntry := 0, PrevLogTerm := 0, Entries := [],
    LeaderCommitIndex := 0 }

/-! ## Append pipeline (client side `callAppendPipeline`)

The session is a transition system. Its state holds the three bounded channels, the
cancellation flag of `p.ctx`, the position of the send loop (the body of
`processPipeline`, including its deferred teardown) and of the receive goroutine, and
history lists that record what happened. One transition is one channel operation or one
network operation; `step` returns `none` when the operation is not enabled, that is, when
the goroutine performing it is blocked. Where a `select` has several ready branches each
branch is a transition of its own. -/

/-- Capacity of the three channels, `var rpcMaxPipeline int = 20`. -/
def rpcMaxPipeline : Nat := 20

/-- An in-flight call object. `id` is the identity of the allocated object (and so of its
outcome slot `respCh`); `args` is the wire request. -/
structure callAppendPipelineInFlight where
  id : Nat
  args : Nat
deriving DecidableEq, Repr

/-- A frame received on the pipeline stream. -/
structure AppendEntriesPipelineResponse where
  Error : String
  Response : Nat
deriving DecidableEq, Repr

/-- Which statement performed a send on an outcome slot. -/
inductive SlotWriter where
  /-- Receive goroutine, `r.respCh <- err` or `r.respCh <- nil`. -/
  | recvLoop
  /-- Send loop, `call.respCh <- context.Canceled`. -/
  | sendLoop
  /-- Deferred teardown, `call.respCh <- retErr`. -/
  | teardown
deriving DecidableEq, Repr

/-- One send on an outcome slot: the call, the value sent (`none` is nil) and the sender. -/
structure SlotWrite where
  call : callAppendPipelineInFlight
  value : Option TransportError
  writer : SlotWriter
deriving DecidableEq, Repr

/-- Position of the body of `processPipeline`. -/
inductive SendPC where
  /-- At the outer `select`. -/
  | selecting
  /-- At the inner `select`, holding the call taken from `pipelineCh`. -/
  | holding (call : callAppendPipelineInFlight)
  /-- At `p.client.Send(call.args)`, the call being in `respCh` already. -/
  | sending (call : callAppendPipelineInFlight)
  /-- In the deferred function, after `p.Close()` and `close(respCh)`, ranging over
  `respCh`; `retErr` is the value returned by the loop. -/
  | draining (retErr : TransportError)
  /-- Returned. -/
  | exited (retErr : TransportError)
deriving DecidableEq, Repr

/-- Position of the receive goroutine. -/
inductive RecvPC where
  /-- At `p.client.Recv()`. -/
  | recving
  /-- At the `select`, holding the received frame. -/
  | selecting (msg : AppendEntriesPipelineResponse)
  /-- At `p.doneCh <- r`, the slot of `r` being written already. -/
  | publishing (r : callAppendPipelineInFlight)
  /-- Returned. -/
  | exited
  /-- Stopped by the nil dereference of an `r` received from the closed, empty `respCh`. -/
  | panicked
deriving DecidableEq, Repr

/-- State of one pipeline session. -/
structure callAppendPipeline where
  /-- Whether `p.ctx` is done. -/
  cancelled : Bool
  /-- Content of `p.pipelineCh`, oldest first. -/
  pipelineCh : List callAppendPipelineInFlight
  /-- Content of the local `respCh`, oldest first. -/
  respCh : List callAppendPipelineInFlight
  /-- Whether `close(respCh)` has run. -/
  respClosed : Bool
  /-- Content of `p.doneCh`, oldest first. -/
  doneCh : List callAppendPipelineInFlight
  send : SendPC
  recv : RecvPC
  /-- Identity of the next call object to be allocated. -/
  nextId : Nat
  /-- History: calls accepted by `AppendEntries` (sent on `pipelineCh`), in order. -/
  accepted : List callAppendPipelineInFlight
  /-- History: calls whose `Send` succeeded, in order. -/
  wire : List callAppendPipelineInFlight
  /-- History: frames returned by `Recv`, in order. -/
  received : List AppendEntriesPipelineResponse
  /-- History: calls taken from `respCh` by the receive goroutine with the frame each was
  matched to, in order. -/
  matched : List (callAppendPipelineInFlight × AppendEntriesPipelineResponse)
  /-- History: sends on outcome slots, in order. -/
  slots : List SlotWrite
  /-- History: calls the engine received from `Consumer()`, in order. -/
  delivered : List callAppendPipelineInFlight
deriving DecidableEq, Repr

/-- The session as `AppendEntriesPipeline` creates it, `processPipeline` just started. -/
def newPipeline : callAppendPipeline :=
  { cancelled := false, pipelineCh := [], respCh := [], respClosed := false, doneCh := [],
    send := .selecting, recv := .recving, nextId := 0, accepted := [], wire := [],
    received := [], matched := [], slots := [], delivered := [] }

/-- Client call `AppendEntriesPipeline(target, addr)`: the lookup key is `string(target)`;
`openErr` gives the error of opening the stream on a handle, if any. -/
def RaftGRPCTransport.AppendEntriesPipeline (t : RaftGRPCTransport)
    (openErr : Client → Option TransportError) (target : String) (_addr : String) :
    Except TransportError callAppendPipeline :=
  match t.getPeerClient target with
  | .error err => .error err
  | .ok conn =>
    match openErr conn with
    | some err => .error err
    | none => .ok newPipeline

/-- Transitions of a session. -/
inductive Action where
  /-- Method `AppendEntries`, branch `p.pipelineCh <- call` of its select. -/
  | submit (args : Nat)
  /-- Method `AppendEntries`, branch `<-p.ctx.Done()`: the call is refused. -/
  | submitCancelled
  /-- Method `Close`, or cancellation of the scope the session derives from. -/
  | close
  /-- Send loop, outer select, branch `call := <-p.pipelineCh`. -/
  | sendTake
  /-- Send loop, outer select, branch `<-p.ctx.Done()`: return `context.Canceled`. -/
  | sendDone
  /-- Send loop, inner select, branch `respCh <- call`. -/
  | sendEnqueue
  /-- Send loop, inner select, branch `<-p.ctx.Done()`: resolve the held call with
  `context.Canceled` and return it. -/
  | sendAbort
  /-- Send loop, `p.client.Send` returns nil. -/
  | sendOk
  /-- Send loop, `p.client.Send` returns `err`: return `err`. -/
  | sendFail (err : TransportError)
  /-- Teardown, one iteration of `for call := range respCh`. -/
  | drain
  /-- Teardown, the range loop ends: `respCh` is closed and empty. -/
  | drainEnd
  /-- Receive goroutine, `Recv` returns a frame. -/
  | recvMsg (msg : AppendEntriesPipelineResponse)
  /-- Receive goroutine, `Recv` returns an error: return. -/
  | recvFail
  /-- Receive goroutine, select branch `<-p.ctx.Done()`: return. -/
  | recvDone
  /-- Receive goroutine, select branch `r := <-respCh` and the statements up to the send
  on `p.doneCh`. -/
  | recvMatch
  /-- Receive goroutine, `p.doneCh <- r`. -/
  | recvPublish
  /-- The engine receives from `Consumer()`. -/
  | consume
deriving DecidableEq, Repr

/-- The return of the send loop with `retErr` and the first two statements of the
deferred function: `p.Close()` and `close(respCh)`. -/
def callAppendPipeline.beginTeardown (s : callAppendPipeline) (retErr : TransportError) :
    callAppendPipeline :=
  { s with cancelled := true, respClosed := true, send := .draining retErr }

/-- One transition; `none` when the operation is not enabled (its goroutine is blocked or
is elsewhere). -/
def callAppendPipeline.step (s : callAppendPipeline) : Action → Option callAppendPipeline
  | .submit args =>
    if s.pipelineCh.length < rpcMaxPipeline then
      some { s with
        pipelineCh := s.pipelineCh ++ [{ id := s.nextId, args := args }]
        accepted := s.accepted ++ [{ id := s.nextId, args := args }]
        nextId := s.nextId + 1 }
    else none
  | .submitCancelled => if s.cancelled then some s else none
  | .close => some { s with cancelled := true }
  | .sendTake =>
    match s.send, s.pipelineCh with
    | .selecting, call :: rest => some { s with pipelineCh := rest, send := .holding call }
    | _, _ => none
  | .sendDone =>
    match s.send with
    | .selecting => if s.cancelled then some (s.beginTeardown .canceled) else none
    | _ => none
  | .sendEnqueue =>
    match s.send with
    | .holding call =>
      if s.respCh.length < rpcMaxPipeline then
        some { s with respCh := s.respCh ++ [call], send := .sending call }
      else none
    | _ => none
  | .sendAbort =>
    match s.send with
    | .holding call =>
      if s.cancelled then
        some (callAppendPipeline.beginTeardown
          { s with
            slots := s.slots ++
              [{ call := call, value := some .canceled, writer := .sendLoop }] }
          .canceled)
      else none
    | _ => none
  | .sendOk =>
    match s.send with
    | .sending call => some { s with wire := s.wire ++ [call], send := .selecting }
    | _ => none
  | .sendFail err =>
    match s.send with
    | .sending _ => some (s.beginTeardown err)
    | _ => none
  | .drain =>
    match s.send, s.respCh with
    | .draining e, call :: rest =>
      some { s with
        respCh := rest
        slots := s.slots ++ [{ call := call, value := some e, writer := .teardown }] }
    | _, _ => none
  | .drainEnd =>
    match s.send, s.respCh with
    | .draining e, [] => some { s with send := .exited e }
    | _, _ => none
  | .recvMsg msg =>
    match s.recv with
    | .recving => some { s with recv := .selecting msg, received := s.received ++ [msg] }
    | _ => none
  | .recvFail =>
    match s.recv with
    | .recving => some { s with recv := .exited, cancelled := true }
    | _ => none
  | .recvDone =>
    match s.recv with
    | .selecting _ => if s.cancelled then some { s with recv := .exited } else none
    | _ => none
  | .recvMatch =>
    match s.recv, s.respCh with
    | .selecting msg, r :: rest =>
      if msg.Error != "" then
        some { s with
          respCh := rest
          matched := s.matched ++ [(r, msg)]
          slots := s.slots ++
            [{ call := r, value := some (.remote msg.Error), writer := .recvLoop }]
          recv := .exited
          cancelled := true }
      else
        some { s with
          respCh := rest
          matched := s.matched ++ [(r, msg)]
          slots := s.slots ++ [{ call := r, value := none, writer := .recvLoop }]
          recv := .publishing r }
    | .selecting _, [] =>
      if s.respClosed then some { s with recv := .panicked, cancelled := true } else none
    | _, _ => none
  | .recvPublish =>
    match s.recv with
    | .publishing r =>
      if s.doneCh.length < rpcMaxPipeline then
        some { s with doneCh := s.doneCh ++ [r], recv := .recving }
      else none
    | _ => none
  | .consume =>
    match s.doneCh with
    | r :: rest => some { s with doneCh := rest, delivered := s.delivered ++ [r] }
    | [] => none

/-- Run a schedule, oldest transition first; `none` if some transition is not enabled. -/
def callAppendPipeline.run (s : callAppendPipeline) : List Action → Option callAppendPipeline
  | [] => some s
  | a :: rest =>
    match s.step a with
    | none => none
    | some s2 => s2.run rest

/-- A state is reachable when some schedule leads to it from the new session. -/
def Reachable (s : callAppendPipeline) : Prop :=
  ∃ sched, newPipeline.run sched = some s

/-- A submitting caller blocks: neither branch of the select of `AppendEntries` is ready. -/
def callAppendPipeline.submitBlocks (s : callAppendPipeline) : Bool :=
  (s.step (.submit 0)).isNone && (s.step .submitCancelled).isNone

/-- Calls whose outcome slot has been sent on, in order. -/
def callAppendPipeline.written (s : callAppendPipeline) : List callAppendPipelineInFlight :=
  s.slots.map SlotWrite.call

/-- The call the send loop holds between taking it from `pipelineCh` and placing it in
`respCh`. -/
def callAppendPipeline.held (s : callAppendPipeline) : List callAppendPipelineInFlight :=
  match s.send with
  | .holding call => [call]
  | _ => []

/-- The call placed in `respCh` whose `Send` has not returned yet. -/
def callAppendPipeline.unsent (s : callAppendPipeline) : List callAppendPipelineInFlight :=
  match s.send with
  | .sending call => [call]
  | _ => []

/-- Calls taken out of `respCh` (by the receive goroutine or by the teardown), in order. -/
def callAppendPipeline.dequeued (s : callAppendPipeline) : List callAppendPipelineInFlight :=
  (s.slots.filter (fun w => w.writer != .sendLoop)).map SlotWrite.call

/-- Calls that await a response: transmitted and not yet taken out of `respCh`. -/
def callAppendPipeline.awaiting (s : callAppendPipeline) : List callAppendPipelineInFlight :=
  s.wire.drop s.dequeued.length

/-- Transitions other than the arrival of a response. -/
def Action.noResponse : Action → Bool
  | .recvMsg _ => false
  | _ => true

/-- Method `Error()` of a call, whose `ctx` is the scope of the session: the values its
select can return in state `s`, namely `context.Canceled` when the scope is done and the
value sent on the outcome slot if there is one. The empty list means the caller blocks. -/
def callAppendPipelineInFlight.Error (c : callAppendPipelineInFlight)
    (s : callAppendPipeline) : List (Option TransportError) :=
  (if s.cancelled then [some .canceled] else [])
    ++ (s.slots.filter (fun w => w.call == c)).map SlotWrite.value

/-- The send loop has returned: it is in its deferred teardown or past it. -/
def callAppendPipeline.sendReturned (s : callAppendPipeline) : Prop :=
  ∃ e, s.send = .draining e ∨ s.send = .exited e

/-- Facts that hold in every reachable state of a session. -/
structure PipelineInv (s : callAppendPipeline) : Prop where
  /-- Identities of accepted calls are below the next identity to be allocated. -/
  fresh : ∀ c ∈ s.accepted, c.id < s.nextId
  /-- Accepted calls are distinct objects. -/
  nodup : s.accepted.Nodup
  /-- Every accepted call is in exactly one place: its slot is written, or it is in
  `respCh`, or the send loop holds it, or it is in `pipelineCh`. -/
  conserve : ∀ c, s.accepted.count c =
    s.written.count c + s.respCh.count c + s.held.count c + s.pipelineCh.count c
  capPipeline : s.pipelineCh.length ≤ rpcMaxPipeline
  capResp : s.respCh.length ≤ rpcMaxPipeline
  capDone : s.doneCh.length ≤ rpcMaxPipeline
  /-- Once the teardown is over `respCh` is empty. -/
  exitedEmpty : ∀ e, s.send = .exited e → s.respCh = []
  /-- The teardown writes the value returned by the send loop. -/
  teardownValue : ∀ w ∈ s.slots, w.writer = .teardown →
    ∃ e, w.value = some e ∧ (s.send = .draining e ∨ s.send = .exited e)
  /-- The return of the send loop cancels the session. -/
  returnedCancelled : s.sendReturned → s.cancelled = true
  /-- Calls leave `respCh` in the order they were transmitted. -/
  queueOrder : ∃ tail, s.dequeued ++ s.respCh = s.wire ++ tail
    ∧ (s.sendReturned ∨ tail = s.unsent)

/-- Facts that hold along a run in which no response arrives. -/
structure QuietInv (s : callAppendPipeline) : Prop where
  recvIdle : s.recv = .recving ∨ s.recv = .exited
  noWrites : s.cancelled = false → s.slots = []

/-! ## Peer registry: lemmas -/

theorem lookup_filter_ne_self (l : List (String × Client)) (id : String) :
    (l.filter (fun p => p.1 != id)).lookup id = none := by
  induction l with
  | nil => rfl
  | cons p l ih =>
    obtain ⟨k, c⟩ := p
    by_cases h : k = id
    · subst h; simpa [List.filter_cons] using ih
    · have h2 : (id == k) = false := by simpa using fun e => h e.symm
      simp [List.filter_cons, h, List.lookup_cons, h2, ih]

theorem lookup_filter_ne_other (l : List (String × Client)) (id k : String) (h : k ≠ id) :
    (l.filter (fun p => p.1 != id)).lookup k = l.lookup k := by
  induction l with
  | nil => rfl
  | cons p l ih =>
    obtain ⟨j, c⟩ := p
    by_cases hj : j = id
    · subst hj
      have h2 : (k == j) = false := by simpa using h
      simp [List.filter_cons, List.lookup_cons, h2, ih]
    · by_cases hk : k = j
      · subst hk; simp [List.filter_cons, hj, List.lookup_cons]
      · have h2 : (k == j) = false := by simpa using hk
        simp [List.filter_cons, hj, List.lookup_cons, h2, ih]

theorem getPeerClient_AddPeer_same (t : RaftGRPCTransport) (id : String) (c : Client) :
    (t.AddPeer id c).getPeerClient id = .ok c := by
  simp [RaftGRPCTransport.getPeerClient, RaftGRPCTransport.AddPeer, List.lookup_cons]

theorem getPeerClient_AddPeer_other (t : RaftGRPCTransport) (id k : String) (c : Client)
    (h : k ≠ id) : (t.AddPeer id c).getPeerClient k = t.getPeerClient k := by
  have h2 : (k == id) = false := by simpa using h
  simp [RaftGRPCTransport.getPeerClient, RaftGRPCTransport.AddPeer, List.lookup_cons, h2,
    lookup_filter_ne_other _ _ _ h]

theorem getPeerClient_RemovePeer_same (t : RaftGRPCTransport) (id : String) :
    (t.RemovePeer id).getPeerClient id = .error (.noConnection id) := by
  simp [RaftGRPCTransport.getPeerClient, RaftGRPCTransport.RemovePeer, lookup_filter_ne_self]

theorem getPeerClient_RemovePeer_other (t : RaftGRPCTransport) (id k : String) (h : k ≠ id) :
    (t.RemovePeer id).getPeerClient k = t.getPeerClient k := by
  simp [RaftGRPCTransport.getPeerClient, RaftGRPCTransport.RemovePeer,
    lookup_filter_ne_other _ _ _ h]

theorem lookup_none_filter_self (l : List (String × Client)) (id : String)
    (h : l.lookup id = none) : l.filter (fun p => p.1 != id) = l := by
  induction l with
  | nil => rfl
  | cons p l ih =>
    obtain ⟨k, c⟩ := p
    by_cases hk : id = k
    · subst hk; simp [List.lookup_cons] at h
    · have h2 : (id == k) = false := by simpa using hk
      simp only [List.lookup_cons, h2] at h
      have hk2 : k ≠ id := fun e => hk e.symm
      simp [List.filter_cons, hk2, ih h]

theorem getPeerClient_applyOps (ops : List RegistryOp) (t : RaftGRPCTransport) (id : String) :
    (applyOps t ops).getPeerClient id =
      match lastWrite id ops with
      | some (some c) => .ok c
      | some none => .error (.noConnection id)
      | none => t.getPeerClient id := by
  induction ops generalizing t with
  | nil => rfl
  | cons op ops ih =>
    cases op with
    | add k c =>
      simp only [applyOps, lastWrite, RegistryOp.apply]
      rw [ih]
      cases hw : lastWrite id ops with
      | some w => cases w <;> rfl
      | none =>
        by_cases hk : k = id
        · subst hk; simp [getPeerClient_AddPeer_same]
        · have : id ≠ k := fun e => hk e.symm
          simp [hk, getPeerClient_AddPeer_other _ _ _ _ this]
    | remove k =>
      simp only [applyOps, lastWrite, RegistryOp.apply]
      rw [ih]
      cases hw : lastWrite id ops with
      | some w => cases w <;> rfl
      | none =>
        by_cases hk : k = id
        · subst hk; simp [getPeerClient_RemovePeer_same]
        · have : id ≠ k := fun e => hk e.symm
          simp [hk, getPeerClient_RemovePeer_other _ _ _ this]

/-! ## C7: the peer registry is a finite map -/

/-- C7: the peer registry behaves as a finite map. After any sequence of `AddPeer` and
`RemovePeer` operations, `getPeerClient id` returns the handle of the most recent
`AddPeer id` when no `RemovePeer id` follows it and fails when the most recent operation
on `id` is a removal (with no operation on `id` the lookup is the one of the starting
registry, which fails for a new transport); `AddPeer` replaces an existing handle,
`RemovePeer` of an absent id leaves the registry unchanged, a lookup of `id` right after
`RemovePeer id` fails, and neither operation changes the lookup of another identifier. -/
theorem registry_finite_map (t : RaftGRPCTransport) (ops : List RegistryOp) (id : String) :
    ((applyOps t ops).getPeerClient id =
        match lastWrite id ops with
        | some (some c) => .ok c
        | some none => .error (.noConnection id)
        | none => t.getPeerClient id)
    ∧ ((applyOps (NewTransport t.localId) ops).getPeerClient id =
        match lastWrite id ops with
        | some (some c) => .ok c
        | _ => .error (.noConnection id))
    ∧ (∀ c d : Client, ((t.AddPeer id c).AddPeer id d).getPeerClient id = .ok d)
    ∧ (t.getPeerClient id = .error (.noConnection id) → t.RemovePeer id = t)
    ∧ ((t.RemovePeer id).getPeerClient id = .error (.noConnection id))
    ∧ (∀ (k : String) (c : Client), k ≠ id →
        (t.AddPeer id c).getPeerClient k = t.getPeerClient k
        ∧ (t.RemovePeer id).getPeerClient k = t.getPeerClient k) := by
  refine ⟨getPeerClient_applyOps ops t id, ?_, ?_, ?_, ?_, ?_⟩
  · rw [getPeerClient_applyOps]
    cases h : lastWrite id ops with
    | none => rfl
    | some w => cases w <;> rfl
  · intro c d; exact getPeerClient_AddPeer_same _ _ _
  · intro h
    have hl : t.peers.lookup id = none := by
      unfold RaftGRPCTransport.getPeerClient at h
      cases hl : t.peers.lookup id with
      | none => rfl
      | some c => rw [hl] at h; cases h
    unfold RaftGRPCTransport.RemovePeer
    rw [lookup_none_filter_self _ _ hl]
  · exact getPeerClient_RemovePeer_same _ _
  · intro k c hk
    exact ⟨getPeerClient_AddPeer_other _ _ _ _ hk, getPeerClient_RemovePeer_other _ _ _ hk⟩

/-- Instance of C7 on a concrete history: add "a", add "b", replace "a", remove "b". -/
theorem registry_finite_map_witness :
    (applyOps (NewTransport "me")
        [.add "a" 1, .add "b" 2, .add "a" 3, .remove "b"]).getPeerClient "a" = .ok 3
    ∧ (NewTransport "me").RemovePeer "a" = NewTransport "me" := by
  have h := registry_finite_map (NewTransport "me")
    [.add "a" 1, .add "b" 2, .add "a" 3, .remove "b"] "a"
  refine ⟨?_, h.2.2.2.1 (by decide)⟩
  have h1 := h.1
  have hw : lastWrite "a" [.add "a" 1, .add "b" 2, .add "a" 3, .remove "b"]
      = some (some 3) := by decide
  rw [hw] at h1
  exact h1

/-! ## C1: heartbeat classification -/

/-- C1 (amended): a request is classified as a heartbeat exactly when its term is non-zero,
its leader field is non-nil (a non-nil leader of length zero included), its previous-log
index and term are 0, it has no entries and its leader-commit index is 0. The request
(term 5, leader "L1", zeros, no entries) is a heartbeat and the same request with one
entry is not. -/
theorem isHeartbeat_iff_leader_non_nil :
    (∀ call : AppendEntriesRequest,
      isHeartbeat call = true ↔
        (call.Term ≠ 0 ∧ call.Leader ≠ none ∧ call.PrevLogEntry = 0 ∧ call.PrevLogTerm = 0
          ∧ call.Entries = [] ∧ call.LeaderCommitIndex = 0))
    ∧ isHeartbeat sampleHeartbeat = true
    ∧ isHeartbeat { sampleHeartbeat with Entries := [[1]] } = false := by
  refine ⟨?_, by decide, by decide⟩
  intro call
  simp [isHeartbeat, and_assoc]

/-- C1 as stated fails: a request with a non-nil leader of length zero is classified as a
heartbeat although its leader identifier is empty. -/
theorem isHeartbeat_empty_leader_counterexample :
    isHeartbeat emptyLeaderRequest = true
    ∧ sliceLen emptyLeaderRequest.Leader = 0
    ∧ heartbeatPerSpec emptyLeaderRequest = false := by
  decide

/-! ## C6: unary calls and the registry lookup key -/

/-- Each unary call fails with the no-connection error, issues no network call and leaves
the response structure untouched exactly when its lookup key has no registry entry;
otherwise it issues exactly one call, on the handle registered for the key. -/
theorem unaryCall_lookup {A Q W R : Type} (t : RaftGRPCTransport) (env : UnaryEnv A Q W R)
    (key : String) (args : A) (resp : R) :
    (t.peers.lookup key = none ↔
      unaryCall t env key args resp =
        { err := some (.noConnection key), issued := [], resp := resp })
    ∧ (∀ c, t.peers.lookup key = some c →
        (unaryCall t env key args resp).issued = [(c, env.toWire args)]) := by
  unfold unaryCall RaftGRPCTransport.getPeerClient
  cases h : t.peers.lookup key with
  | none => simp
  | some c =>
    cases h2 : env.invoke c (env.toWire args) <;> simp [h2]

/-- C6 (evaluation at the failing input): with the registry holding a handle for peer
"node1" only, `AppendEntries` and `TimeoutNow` addressed to target "node1" at address
"10.0.0.1:7000" fail with the no-connection error for the address and issue no call,
whereas `RequestVote` with the same arguments is issued on the handle of "node1". -/
theorem unary_calls_lookup_by_address :
    ((NewTransport "me").AddPeer "node1" 7).getPeerClient "node1" = .ok 7
    ∧ ((NewTransport "me").AddPeer "node1" 7).AppendEntries sampleUnaryEnv
        "node1" "10.0.0.1:7000" 3 0
        = { err := some (.noConnection "10.0.0.1:7000"), issued := [], resp := 0 }
    ∧ ((NewTransport "me").AddPeer "node1" 7).TimeoutNow sampleUnaryEnv
        "node1" "10.0.0.1:7000" 3 0
        = { err := some (.noConnection "10.0.0.1:7000"), issued := [], resp := 0 }
    ∧ ((NewTransport "me").AddPeer "node1" 7).RequestVote sampleUnaryEnv
        "node1" "10.0.0.1:7000" 3 0
        = { err := none, issued := [(7, 3)], resp := 10 } := by
  decide

/-! ## C3: the server-side byte source over the snapshot stream -/

theorem Read_recvErr {Q : Type} (r : snapshotReader Q) (b : Nat) :
    (r.Read b).2.recvErr = r.recvErr := by
  unfold snapshotReader.Read
  split
  · rfl
  · split <;> rfl

theorem Read_pending {Q : Type} (r : snapshotReader Q) (b : Nat) :
    (r.Read b).1.bytes ++ (r.Read b).2.pending = r.pending := by
  unfold snapshotReader.Read
  split
  · simp [snapshotReader.pending, ← List.append_assoc, List.take_append_drop]
  · rename_i h
    have hl : r.leftOver = [] := by
      cases hlo : r.leftOver with
      | nil => rfl
      | cons a l => rw [hlo] at h; simp at h
    split
    · rename_i hs
      simp [snapshotReader.pending, hl, hs]
    · rename_i x rest hs
      simp only [snapshotReader.pending, hl, hs, List.map_cons, List.flatten_cons,
        List.nil_append]
      by_cases hn : min b x.GetData.length < x.GetData.length
      · simp only [hn, if_true]
        rw [← List.append_assoc, List.take_append_drop]
      · simp only [hn, if_false, List.nil_append]
        have hmin : min b x.GetData.length = x.GetData.length := by omega
        rw [hmin, List.take_length]

theorem Read_err_iff {Q : Type} (r : snapshotReader Q) (b : Nat) (e : TransportError) :
    (r.Read b).1.err = some e ↔ (r.leftOver = [] ∧ r.s = [] ∧ e = r.recvErr) := by
  unfold snapshotReader.Read
  split
  · rename_i h
    have : r.leftOver ≠ [] := by
      intro h0; rw [h0] at h; simp at h
    simp [this]
  · rename_i h
    have hl : r.leftOver = [] := by
      cases hlo : r.leftOver with
      | nil => rfl
      | cons a l => rw [hlo] at h; simp at h
    split
    · rename_i hs
      simp [hl, hs, eq_comm]
    · rename_i x rest hs
      simp [hl, hs]

theorem Read_err_bytes {Q : Type} (r : snapshotReader Q) (b : Nat) (e : TransportError)
    (h : (r.Read b).1.err = some e) : (r.Read b).1.bytes = [] ∧ (r.Read b).2 = r := by
  obtain ⟨hl, hs, -⟩ := (Read_err_iff r b e).1 h
  unfold snapshotReader.Read
  simp [hl, hs]

theorem Read_leftOver_first {Q : Type} (r : snapshotReader Q) (b : Nat)
    (h : r.leftOver ≠ []) :
    (r.Read b).1 = { bytes := r.leftOver.take b, err := none }
      ∧ (r.Read b).2.s = r.s
      ∧ (r.Read b).2.leftOver = r.leftOver.drop b := by
  have hpos : r.leftOver.length > 0 := List.length_pos.2 h
  have htake : List.take (min b r.leftOver.length) r.leftOver = List.take b r.leftOver :=
    List.take_eq_take.2 (by omega)
  have hdrop : List.drop (min b r.leftOver.length) r.leftOver = List.drop b r.leftOver := by
    by_cases hb : b ≤ r.leftOver.length
    · rw [Nat.min_eq_left hb]
    · have hb2 : r.leftOver.length ≤ b := by omega
      rw [Nat.min_eq_right hb2, List.drop_length, List.drop_eq_nil_of_le hb2]
  unfold snapshotReader.Read
  rw [if_pos hpos]
  exact ⟨by simp only [htake], rfl, hdrop⟩

/-- Size of the work a reader still has: pending bytes plus frames not yet received. -/
theorem Read_progress {Q : Type} (r : snapshotReader Q) (b : Nat) (hb : 0 < b)
    (h : (r.Read b).1.err = none) :
    (r.Read b).2.pending.length + (r.Read b).2.s.length < r.pending.length + r.s.length := by
  have hp := congrArg List.length (Read_pending r b)
  rw [List.length_append] at hp
  by_cases hl : r.leftOver = []
  · cases hs : r.s with
    | nil =>
      have : (r.Read b).1.err = some r.recvErr := (Read_err_iff r b _).2 ⟨hl, hs, rfl⟩
      rw [this] at h; cases h
    | cons x rest =>
      have hs2 : (r.Read b).2.s = rest := by
        unfold snapshotReader.Read
        simp [hl, hs]
      rw [hs2]
      simp only [List.length_cons]
      omega
  · obtain ⟨h1, h2, -⟩ := Read_leftOver_first r b hl
    have hlen : (r.Read b).1.bytes.length = min b r.leftOver.length := by
      rw [h1]; simp
    have hpos : r.leftOver.length > 0 := List.length_pos.2 hl
    rw [h2]
    omega

theorem readUntilError_pending {Q : Type} (bufs : List Nat) (r : snapshotReader Q) :
    (readUntilError r bufs).1 ++ (readUntilError r bufs).2.2.pending = r.pending := by
  induction bufs generalizing r with
  | nil => simp [readUntilError]
  | cons b rest ih =>
    unfold readUntilError
    cases h : (r.Read b).1.err with
    | some e => simpa using Read_pending r b
    | none =>
      simp only [List.append_assoc]
      rw [ih, Read_pending]

theorem readUntilError_err {Q : Type} (bufs : List Nat) (r : snapshotReader Q)
    (e : TransportError) (h : (readUntilError r bufs).2.1 = some e) :
    (readUntilError r bufs).2.2.pending = [] ∧ e = r.recvErr := by
  induction bufs generalizing r with
  | nil => simp [readUntilError] at h
  | cons b rest ih =>
    unfold readUntilError at h ⊢
    cases h2 : (r.Read b).1.err with
    | some e2 =>
      rw [h2] at h
      simp only at h ⊢
      obtain ⟨hl, hs, he⟩ := (Read_err_iff r b e2).1 h2
      have := (Read_err_bytes r b e2 h2).2
      rw [this]
      refine ⟨by simp [snapshotReader.pending, hl, hs], ?_⟩
      have : e2 = e := by simpa using h
      rw [← this, he]
    | none =>
      rw [h2] at h
      simp only at h ⊢
      have := ih (r.Read b).2 h
      rw [Read_recvErr] at this
      exact this

theorem readUntilError_reaches_error {Q : Type} (bufs : List Nat) (r : snapshotReader Q)
    (hpos : ∀ b ∈ bufs, 0 < b) (hlen : r.pending.length + r.s.length < bufs.length) :
    (readUntilError r bufs).2.1 = some r.recvErr := by
  induction bufs generalizing r with
  | nil => simp at hlen
  | cons b rest ih =>
    unfold readUntilError
    cases h2 : (r.Read b).1.err with
    | some e2 =>
      simp only
      rw [((Read_err_iff r b e2).1 h2).2.2]
    | none =>
      simp only
      have hb : 0 < b := hpos b (List.mem_cons_self _ _)
      have hprog := Read_progress r b hb h2
      have := ih (r.Read b).2 (fun c hc => hpos c (List.mem_cons_of_mem _ hc))
        (by simp only [List.length_cons] at hlen; omega)
      rw [Read_recvErr] at this
      exact this

/-- C3: for every finite sequence of data chunks followed by a receive failure and every
sequence of `Read` calls with non-empty buffers, the bytes read up to the first error
followed by the bytes still pending are the concatenation of the chunks (nothing lost,
duplicated or reordered); when the reads reach an error the bytes read are exactly that
concatenation and the error is the receive failure; more reads than bytes plus chunks do
reach it. Each `Read` with leftover bytes serves them without receiving, and `Read` returns
an error exactly when no leftover remains and the receive fails, with 0 bytes. -/
theorem snapshotReader_reads_concat {Q : Type} (chunks : List (List Byte))
    (recvErr : TransportError) (bufs : List Nat) (hpos : ∀ b ∈ bufs, 0 < b) :
    ((readUntilError (chunkReader Q chunks recvErr) bufs).1
        ++ (readUntilError (chunkReader Q chunks recvErr) bufs).2.2.pending = chunks.flatten)
    ∧ (∀ e, (readUntilError (chunkReader Q chunks recvErr) bufs).2.1 = some e →
        (readUntilError (chunkReader Q chunks recvErr) bufs).1 = chunks.flatten ∧ e = recvErr)
    ∧ (chunks.flatten.length + chunks.length < bufs.length →
        (readUntilError (chunkReader Q chunks recvErr) bufs).2.1 = some recvErr)
    ∧ (∀ (r : snapshotReader Q) (b : Nat), 0 < b →
        (r.leftOver ≠ [] →
          (r.Read b).1 = { bytes := r.leftOver.take b, err := none } ∧ (r.Read b).2.s = r.s)
        ∧ ((r.Read b).1.err ≠ none ↔ (r.leftOver = [] ∧ r.s = []))
        ∧ ((r.Read b).1.err ≠ none → (r.Read b).1.bytes = [])) := by
  have hpend : (chunkReader Q chunks recvErr).pending = chunks.flatten := by
    simp [chunkReader, snapshotReader.pending, List.map_map, Function.comp_def,
      InstallSnapshotStream.GetData]
  refine ⟨?_, ?_, ?_, ?_⟩
  · rw [readUntilError_pending, hpend]
  · intro e he
    obtain ⟨h1, h2⟩ := readUntilError_err bufs _ e he
    have h3 := readUntilError_pending bufs (chunkReader Q chunks recvErr)
    rw [h1, List.append_nil, hpend] at h3
    exact ⟨h3, h2⟩
  · intro hlen
    exact readUntilError_reaches_error bufs (chunkReader Q chunks recvErr) hpos
      (by rw [hpend]; simpa [chunkReader] using hlen)
  · intro r b _
    refine ⟨fun h => ⟨(Read_leftOver_first r b h).1, (Read_leftOver_first r b h).2.1⟩, ?_, ?_⟩
    · constructor
      · intro h
        cases he : (r.Read b).1.err with
        | none => exact absurd he h
        | some e => exact ⟨((Read_err_iff r b e).1 he).1, ((Read_err_iff r b e).1 he).2.1⟩
      · intro ⟨hl, hs⟩
        rw [(Read_err_iff r b r.recvErr).2 ⟨hl, hs, rfl⟩]
        simp
    · intro h
      cases he : (r.Read b).1.err with
      | none => exact absurd he h
      | some e => exact (Read_err_bytes r b e he).1

/-- Instance of C3: the chunks "abc" and "defgh", read with buffers of length 2, yield
"abcdefgh" and then the end-of-stream error. -/
theorem snapshotReader_reads_concat_witness :
    (readUntilError (chunkReader Unit [[97, 98, 99], [100, 101, 102, 103, 104]] .eof)
        [2, 2, 2, 2, 2, 2, 2, 2, 2, 2, 2]).1 = [97, 98, 99, 100, 101, 102, 103, 104]
    ∧ (readUntilError (chunkReader Unit [[97, 98, 99], [100, 101, 102, 103, 104]] .eof)
        [2, 2, 2, 2, 2, 2, 2, 2, 2, 2, 2]).2.1 = some .eof := by
  have h := @snapshotReader_reads_concat Unit [[97, 98, 99], [100, 101, 102, 103, 104]]
    .eof [2, 2, 2, 2, 2, 2, 2, 2, 2, 2, 2] (by decide)
  have h3 := h.2.2.1 (by decide)
  exact ⟨(h.2.1 _ h3).1, h3⟩

/-! ## C4: the client-side snapshot transfer -/

/-- When no send fails, no read fails and end-of-stream is only ever reported by a read
that returns no bytes, the loop sends data frames whose payloads, in order, are the bytes
of the source, each frame holding the bytes of one read. -/
theorem snapshotSendLoop_streams {Q : Type} (sendErr : Nat → Option TransportError)
    (hs : ∀ k, sendErr k = none) (data : List ReadStep)
    (hclean : ∀ st ∈ data, st.err = none ∨ (st.err = some .eof ∧ st.data = [])) (k : Nat) :
    (snapshotSendLoop sendErr k data : List (InstallSnapshotStream Q) × _).2 = none
    ∧ dataBytes (snapshotSendLoop sendErr k data : List (InstallSnapshotStream Q) × _).1
        = sourceBytes data
    ∧ (∀ f ∈ (snapshotSendLoop sendErr k data : List (InstallSnapshotStream Q) × _).1,
        ∃ st ∈ data, f = .Data st.data) := by
  induction data generalizing k with
  | nil => simp [snapshotSendLoop, dataBytes, sourceBytes]
  | cons st rest ih =>
    have hrest : ∀ st ∈ rest, st.err = none ∨ (st.err = some .eof ∧ st.data = []) :=
      fun x hx => hclean x (List.mem_cons_of_mem _ hx)
    rcases hclean st (List.mem_cons_self _ _) with h | ⟨h, hd⟩
    · obtain ⟨i1, i2, i3⟩ := ih hrest (k + 1)
      unfold snapshotSendLoop
      simp only [h, hs k, sourceBytes]
      refine ⟨i1, ?_, ?_⟩
      · simp only [dataBytes, List.map_cons, List.flatten_cons,
          InstallSnapshotStream.GetData] at i2 ⊢
        rw [i2]
      · intro f hf
        rcases List.mem_cons.1 hf with hf | hf
        · exact ⟨st, List.mem_cons_self _ _, hf⟩
        · obtain ⟨x, hx, hfx⟩ := i3 f hf
          exact ⟨x, List.mem_cons_of_mem _ hx, hfx⟩
    · unfold snapshotSendLoop
      simp [h, hd, sourceBytes, dataBytes]

/-- Under the same conditions, when every read returns at most as many bytes as the
buffer holds, every data frame carries at most `snapshotBufLen` bytes. -/
theorem snapshotSendLoop_frame_bound {Q : Type} (sendErr : Nat → Option TransportError)
    (hs : ∀ k, sendErr k = none) (data : List ReadStep)
    (hclean : ∀ st ∈ data, st.err = none ∨ (st.err = some .eof ∧ st.data = []))
    (hbuf : ∀ st ∈ data, st.data.length ≤ snapshotBufLen) (k : Nat) :
    ∀ f ∈ (snapshotSendLoop sendErr k data : List (InstallSnapshotStream Q) × _).1,
      f.GetData.length ≤ snapshotBufLen := by
  intro f hf
  obtain ⟨st, hst, rfl⟩ := (snapshotSendLoop_streams sendErr hs data hclean k).2.2 f hf
  exact hbuf st hst

/-- C4 (evaluation at the failing input): a source whose single read returns the three
bytes "abc" together with end-of-stream. The transfer sends the header only, closes the
send side and returns without error; the three bytes of the source are in no data frame. -/
theorem InstallSnapshot_drops_bytes_read_with_eof :
    ((NewTransport "me").AddPeer "p" 7).InstallSnapshot sampleSnapshotEnv "p" "p" 3 0
        [{ data := [97, 98, 99], err := some .eof }]
      = { err := none, sent := [.Request 3], closes := 1, resp := 1 }
    ∧ sourceBytes [{ data := [97, 98, 99], err := some .eof }] = [97, 98, 99]
    ∧ dataBytes (((NewTransport "me").AddPeer "p" 7).InstallSnapshot sampleSnapshotEnv
        "p" "p" 3 0 [{ data := [97, 98, 99], err := some .eof }]).sent = [] := by
  decide

/-! ## C5: the server-side snapshot handler and a first frame that is no header -/

/-- C5 (amended): when the first frame of the snapshot stream is not a header, the handler
does not reject the stream. It converts the nil request; if that conversion panics the
handler panics, otherwise, once the engine accepts the request, the first action is the
publication of the converted nil request with a byte source over the remaining frames,
exactly as for a header. An error returned by the handler is the cancellation error, the
error reported by the engine, or the error of sending the terminal response. -/
theorem InstallSnapshot_server_no_header_check {C Q W R : Type}
    (ToRaft : Option Q → Option C) (New : R → W) (sendAndClose : W → Option TransportError)
    (env : DispatchEnv R) (m : InstallSnapshotStream Q) (rest : List (InstallSnapshotStream Q))
    (recvErr : TransportError) (hm : m.GetRequest = none) :
    (ToRaft none = none →
      raftGrpcTransportServer.InstallSnapshot ToRaft New sendAndClose env (m :: rest) recvErr
        = ([], .panicked))
    ∧ (∀ cmd, ToRaft none = some cmd → env.accepted = true →
        (raftGrpcTransportServer.InstallSnapshot ToRaft New sendAndClose env (m :: rest)
            recvErr).1.head?
          = some (.published cmd (some { s := rest, recvErr := recvErr, leftOver := [] })))
    ∧ (∀ v e,
        (raftGrpcTransportServer.InstallSnapshot ToRaft New sendAndClose env (m :: rest)
            recvErr).2 = .returned v (some e) →
          e = .canceled ∨ (∃ res, env.reply = some res ∧ res.Error = some e)
            ∨ (∃ w, sendAndClose w = some e)) := by
  simp only [raftGrpcTransportServer.InstallSnapshot, raftGrpcTransportServer.processRpc, hm]
  refine ⟨?_, ?_, ?_⟩
  · intro h; simp [h]
  · intro cmd h ha
    simp only [h, ha, if_true]
    cases hr : env.reply with
    | none => simp
    | some res =>
      cases he : res.Error with
      | some e => simp [he]
      | none =>
        cases hv : res.Response with
        | none => simp [he, hv]
        | some r => simp [he, hv]
  · intro v e
    cases h : ToRaft none with
    | none => simp
    | some cmd =>
      by_cases ha : env.accepted = true
      · simp only [ha, if_true]
        cases hr : env.reply with
        | none =>
          simp only [ServerOutcome.returned.injEq, Option.some.injEq, and_imp]
          intro _ he; exact Or.inl he.symm
        | some res =>
          cases he : res.Error with
          | some e2 =>
            simp only [he, ServerOutcome.returned.injEq, Option.some.injEq, and_imp]
            intro _ h2
            exact Or.inr (Or.inl ⟨res, rfl, by rw [he, h2]⟩)
          | none =>
            cases hv : res.Response with
            | none => simp [he, hv]
            | some r =>
              simp only [he, hv, ServerOutcome.returned.injEq, true_and]
              intro h2
              exact Or.inr (Or.inr ⟨New r, h2.2⟩)
      · simp only [ha]
        simp only [Bool.false_eq_true, if_false, ServerOutcome.returned.injEq,
          Option.some.injEq, and_imp]
        intro _ he; exact Or.inl he.symm

/-- Instance of C5 (amended): a stream that opens with the data chunk [1, 2, 3]. -/
theorem InstallSnapshot_server_no_header_check_witness :
    (raftGrpcTransportServer.InstallSnapshot ToRaftNilSafe (fun r : Nat => r)
        (fun _ : Nat => none) sampleDispatchEnv [.Data [1, 2, 3], .Data [4]]
        TransportError.eof).1.head?
      = some (.published 0 (some { s := [.Data [4]], recvErr := .eof, leftOver := [] })) :=
  (InstallSnapshot_server_no_header_check ToRaftNilSafe (fun r : Nat => r)
    (fun _ : Nat => none) sampleDispatchEnv (.Data [1, 2, 3]) [.Data [4]] .eof rfl).2.1
    0 rfl rfl

/-- C5 as stated fails: on a stream whose first frame is the data chunk [1, 2, 3] the
handler, with a nil-safe conversion, publishes the zero-valued request, sends the terminal
response and returns without any error; with a dereferencing conversion it panics. In
neither case does it fail with a protocol-violation error. -/
theorem InstallSnapshot_server_data_first_counterexample :
    raftGrpcTransportServer.InstallSnapshot ToRaftNilSafe (fun r : Nat => r)
        (fun _ : Nat => none) sampleDispatchEnv [.Data [1, 2, 3], .Data [4]]
        TransportError.eof
      = ([.published 0 (some { s := [.Data [4]], recvErr := .eof, leftOver := [] }),
          .sentAndClosed 1], .returned none none)
    ∧ raftGrpcTransportServer.InstallSnapshot ToRaftNilPanics (fun r : Nat => r)
        (fun _ : Nat => none) sampleDispatchEnv [.Data [1, 2, 3], .Data [4]]
        TransportError.eof
      = (([] : List (ServerEvent Nat Nat Nat)), .panicked) := by
  decide

/-! ## C2: heartbeat routing on the unary and on the pipelined path -/

/-- On the pipelined stream a call that qualifies as a heartbeat is handed to the
registered callback and nothing is published; without a callback it is published on the
shared channel exactly like a call that is no heartbeat. -/
theorem pipelined_heartbeat_routing {C Q W : Type} (t : RaftGRPCTransport)
    (ToRaft : AppendEntriesRequest → Option C) (recvErr : TransportError)
    (call : AppendEntriesRequest) (accepted : Bool)
    (rest : List (AppendEntriesRequest × Bool)) (cmd : C) (hcmd : ToRaft call = some cmd)
    (hb : isHeartbeat call = true) :
    (∀ h, t.heartbeatHandler = some h →
      (raftGrpcTransportServer.AppendEntriesPipeline t ToRaft recvErr
          ((call, accepted) :: rest) : List (ServerEvent C Q W) × _)
        = ([.heartbeat h cmd], .returned none none))
    ∧ (t.heartbeatHandler = none → accepted = true →
      (raftGrpcTransportServer.AppendEntriesPipeline t ToRaft recvErr
          ((call, accepted) :: rest) : List (ServerEvent C Q W) × _)
        = (.published cmd none :: .spawnedResponder cmd ::
            (@raftGrpcTransportServer.AppendEntriesPipeline C Q W t ToRaft recvErr rest).1,
           (@raftGrpcTransportServer.AppendEntriesPipeline C Q W t ToRaft recvErr rest).2)) := by
  constructor
  · intro h hh
    rw [raftGrpcTransportServer.AppendEntriesPipeline]
    simp [hcmd, hb, hh]
  · intro hh ha
    rw [raftGrpcTransportServer.AppendEntriesPipeline]
    simp [hcmd, hb, hh, ha]

/-- The unary handler never consults the heartbeat callback: its behaviour is the same for
every transport state, and none of its actions is a callback invocation. -/
theorem unary_AppendEntries_ignores_handler {C Q W R : Type} (t u : RaftGRPCTransport)
    (ToRaft : AppendEntriesRequest → Option C) (New : R → W) (env : DispatchEnv R)
    (req : AppendEntriesRequest) :
    (raftGrpcTransportServer.AppendEntries t ToRaft New env req :
        List (ServerEvent C Q W) × _)
      = raftGrpcTransportServer.AppendEntries u ToRaft New env req
    ∧ ∀ h cmd, ServerEvent.heartbeat h cmd ∉
        (raftGrpcTransportServer.AppendEntries t ToRaft New env req :
          List (ServerEvent C Q W) × _).1 := by
  refine ⟨rfl, ?_⟩
  intro h cmd
  unfold raftGrpcTransportServer.AppendEntries raftGrpcTransportServer.processRpc
  cases ToRaft req with
  | none => simp
  | some c =>
    cases env.accepted with
    | false => simp
    | true =>
      cases hr : env.reply with
      | none => simp
      | some res =>
        cases he : res.Error with
        | some e => simp [he]
        | none => cases hv : res.Response <;> simp [he, hv]

/-- C2 (evaluation at the failing input): with heartbeat callback 9 registered, the
heartbeat request (term 5, leader "L1") arriving as a unary call is published on the shared
channel and the callback is not invoked, whereas the same request arriving on the
pipelined stream is handed to callback 9 and nothing is published. -/
theorem unary_heartbeat_bypasses_handler :
    isHeartbeat sampleHeartbeat = true
    ∧ raftGrpcTransportServer.AppendEntries
        ((NewTransport "me").SetHeartbeatHandler (some 9)) some (fun r : Nat => r)
        sampleDispatchEnv sampleHeartbeat
      = (([.published sampleHeartbeat none] :
          List (ServerEvent AppendEntriesRequest Nat Nat)), .returned (some 1) none)
    ∧ raftGrpcTransportServer.AppendEntriesPipeline
        ((NewTransport "me").SetHeartbeatHandler (some 9)) some TransportError.eof
        [(sampleHeartbeat, true)]
      = (([.heartbeat 9 sampleHeartbeat] :
          List (ServerEvent AppendEntriesRequest Nat Nat)), .returned none none) := by
  decide

/-! ## Append pipeline: invariants of the transition system -/

theorem step_fresh (s s2 : callAppendPipeline) (a : Action) (h : s.step a = some s2)
    (hi : ∀ c ∈ s.accepted, c.id < s.nextId) : ∀ c ∈ s2.accepted, c.id < s2.nextId := by
  cases a <;> simp only [callAppendPipeline.step, callAppendPipeline.beginTeardown] at h <;>
    (repeat' (split at h)) <;>
    (first
      | (cases h; done)
      | (obtain rfl := Option.some.inj h; exact hi)
      | (obtain rfl := Option.some.inj h
         intro c hc
         simp only [List.mem_append, List.mem_singleton] at hc
         rcases hc with hc | rfl
         · exact Nat.lt_succ_of_lt (hi c hc)
         · exact Nat.lt_succ_self _))

theorem step_nodup (s s2 : callAppendPipeline) (a : Action) (h : s.step a = some s2)
    (hf : ∀ c ∈ s.accepted, c.id < s.nextId) (hi : s.accepted.Nodup) : s2.accepted.Nodup := by
  cases a <;> simp only [callAppendPipeline.step, callAppendPipeline.beginTeardown] at h <;>
    (repeat' (split at h)) <;>
    (first
      | (cases h; done)
      | (obtain rfl := Option.some.inj h; exact hi)
      | (obtain rfl := Option.some.inj h
         refine List.Nodup.append hi (List.nodup_singleton _) ?_
         intro c hc hc2
         rw [List.mem_singleton] at hc2
         subst hc2
         exact Nat.lt_irrefl _ (hf _ hc)))

theorem step_conserve (s s2 : callAppendPipeline) (a : Action) (h : s.step a = some s2)
    (hi : ∀ c, s.accepted.count c =
      s.written.count c + s.respCh.count c + s.held.count c + s.pipelineCh.count c) :
    ∀ c, s2.accepted.count c =
      s2.written.count c + s2.respCh.count c + s2.held.count c + s2.pipelineCh.count c := by
  intro c
  have hc := hi c
  cases a <;> simp only [callAppendPipeline.step, callAppendPipeline.beginTeardown] at h <;>
    (repeat' (split at h)) <;>
    (first
      | (cases h; done)
      | (obtain rfl := Option.some.inj h
         simp_all [callAppendPipeline.written, callAppendPipeline.held, List.count_cons,
           List.count_append, List.count_nil]
         try omega))

theorem step_caps (s s2 : callAppendPipeline) (a : Action) (h : s.step a = some s2)
    (hi : s.pipelineCh.length ≤ rpcMaxPipeline ∧ s.respCh.length ≤ rpcMaxPipeline
      ∧ s.doneCh.length ≤ rpcMaxPipeline) :
    s2.pipelineCh.length ≤ rpcMaxPipeline ∧ s2.respCh.length ≤ rpcMaxPipeline
      ∧ s2.doneCh.length ≤ rpcMaxPipeline := by
  cases a <;> simp only [callAppendPipeline.step, callAppendPipeline.beginTeardown] at h <;>
    (repeat' (split at h)) <;>
    (first
      | (cases h; done)
      | (obtain rfl := Option.some.inj h
         simp_all
         try omega))

theorem step_teardown (s s2 : callAppendPipeline) (a : Action) (h : s.step a = some s2)
    (h1 : ∀ e, s.send = .exited e → s.respCh = [])
    (h2 : ∀ w ∈ s.slots, w.writer = .teardown →
      ∃ e, w.value = some e ∧ (s.send = .draining e ∨ s.send = .exited e))
    (h3 : (∃ e, s.send = .draining e ∨ s.send = .exited e) → s.cancelled = true) :
    (∀ e, s2.send = .exited e → s2.respCh = [])
    ∧ (∀ w ∈ s2.slots, w.writer = .teardown →
      ∃ e, w.value = some e ∧ (s2.send = .draining e ∨ s2.send = .exited e))
    ∧ ((∃ e, s2.send = .draining e ∨ s2.send = .exited e) → s2.cancelled = true) := by
  cases a <;> simp only [callAppendPipeline.step, callAppendPipeline.beginTeardown] at h <;>
    (repeat' (split at h)) <;>
    (first
      | (cases h; done)
      | (obtain rfl := Option.some.inj h
         simp_all
         try assumption
         try aesop))

theorem step_queueOrder (s s2 : callAppendPipeline) (a : Action) (h : s.step a = some s2)
    (hi : ∃ tail, s.dequeued ++ s.respCh = s.wire ++ tail
      ∧ ((∃ e, s.send = .draining e ∨ s.send = .exited e) ∨ tail = s.unsent)) :
    ∃ tail, s2.dequeued ++ s2.respCh = s2.wire ++ tail
      ∧ ((∃ e, s2.send = .draining e ∨ s2.send = .exited e) ∨ tail = s2.unsent) := by
  obtain ⟨tail, ht, hs⟩ := hi
  cases a
  case sendEnqueue =>
    simp only [callAppendPipeline.step] at h
    split at h
    · rename_i call hsend
      split at h
      · obtain rfl := Option.some.inj h
        have htail : tail = [] := by
          rcases hs with ⟨e, he | he⟩ | hs
          · rw [hsend] at he; cases he
          · rw [hsend] at he; cases he
          · rw [hs]; simp [callAppendPipeline.unsent, hsend]
        subst htail
        refine ⟨[call], ?_, Or.inr ?_⟩
        · show s.dequeued ++ (s.respCh ++ [call]) = s.wire ++ [call]
          rw [← List.append_assoc, ht, List.append_nil]
        · simp [callAppendPipeline.unsent]
      · cases h
    · cases h
  all_goals
    simp only [callAppendPipeline.step, callAppendPipeline.beginTeardown] at h
    (repeat' (split at h)) <;>
    (first
      | (cases h; done)
      | (obtain rfl := Option.some.inj h
         simp_all [callAppendPipeline.dequeued, callAppendPipeline.unsent, List.filter_append]))

theorem step_inv (s s2 : callAppendPipeline) (a : Action) (h : s.step a = some s2)
    (hi : PipelineInv s) : PipelineInv s2 := by
  have ht := step_teardown s s2 a h hi.exitedEmpty hi.teardownValue hi.returnedCancelled
  have hc := step_caps s s2 a h ⟨hi.capPipeline, hi.capResp, hi.capDone⟩
  exact
    { fresh := step_fresh s s2 a h hi.fresh
      nodup := step_nodup s s2 a h hi.fresh hi.nodup
      conserve := step_conserve s s2 a h hi.conserve
      capPipeline := hc.1
      capResp := hc.2.1
      capDone := hc.2.2
      exitedEmpty := ht.1
      teardownValue := ht.2.1
      returnedCancelled := ht.2.2
      queueOrder := step_queueOrder s s2 a h hi.queueOrder }

theorem newPipeline_inv : PipelineInv newPipeline := by
  refine
    { fresh := ?_, nodup := ?_, conserve := ?_, capPipeline := ?_, capResp := ?_,
      capDone := ?_, exitedEmpty := ?_, teardownValue := ?_, returnedCancelled := ?_,
      queueOrder := ⟨[], ?_, Or.inr ?_⟩ } <;>
    simp [newPipeline, callAppendPipeline.written, callAppendPipeline.held,
      callAppendPipeline.sendReturned, callAppendPipeline.dequeued,
      callAppendPipeline.unsent]

theorem run_inv (sched : List Action) (s s2 : callAppendPipeline)
    (h : s.run sched = some s2) (hi : PipelineInv s) : PipelineInv s2 := by
  induction sched generalizing s with
  | nil =>
    simp only [callAppendPipeline.run] at h
    obtain rfl := Option.some.inj h
    exact hi
  | cons a rest ih =>
    simp only [callAppendPipeline.run] at h
    cases hs : s.step a with
    | none => rw [hs] at h; cases h
    | some s1 =>
      rw [hs] at h
      exact ih s1 h (step_inv s s1 a hs hi)

theorem reachable_inv (sched : List Action) (s : callAppendPipeline)
    (h : newPipeline.run sched = some s) : PipelineInv s :=
  run_inv sched newPipeline s h newPipeline_inv

theorem step_quiet (s s2 : callAppendPipeline) (a : Action)
    (h : s.step a = some s2) (ha : a.noResponse = true)
    (hr : s.sendReturned → s.cancelled = true) (hi : QuietInv s) : QuietInv s2 := by
  obtain ⟨h1, h2⟩ := hi
  have key : (s2.recv = .recving ∨ s2.recv = .exited)
      ∧ (s2.cancelled = false → s2.slots = []) := by
    unfold callAppendPipeline.sendReturned at hr
    cases a <;> simp only [Action.noResponse] at ha <;>
      simp only [callAppendPipeline.step, callAppendPipeline.beginTeardown] at h <;>
      (repeat' (split at h)) <;>
      (first
        | (cases h; done)
        | (obtain rfl := Option.some.inj h
           simp_all))
  exact ⟨key.1, key.2⟩

theorem run_quiet (sched : List Action) (s s2 : callAppendPipeline)
    (hn : ∀ a ∈ sched, a.noResponse = true) (h : s.run sched = some s2)
    (hp : PipelineInv s) (hi : QuietInv s) : QuietInv s2 := by
  induction sched generalizing s with
  | nil =>
    simp only [callAppendPipeline.run] at h
    obtain rfl := Option.some.inj h
    exact hi
  | cons a rest ih =>
    simp only [callAppendPipeline.run] at h
    cases hs : s.step a with
    | none => rw [hs] at h; cases h
    | some s1 =>
      rw [hs] at h
      exact ih s1 (fun b hb => hn b (List.mem_cons_of_mem _ hb)) h (step_inv s s1 a hs hp)
        (step_quiet s s1 a hs (hn a (List.mem_cons_self _ _)) hp.returnedCancelled hi)

theorem newPipeline_quiet : QuietInv newPipeline :=
  ⟨Or.inl rfl, fun _ => rfl⟩

theorem length_of_conserve (s : callAppendPipeline) (hi : PipelineInv s) :
    s.accepted.length =
      s.written.length + s.respCh.length + s.held.length + s.pipelineCh.length := by
  have hp : s.accepted.Perm (s.written ++ s.respCh ++ s.held ++ s.pipelineCh) := by
    rw [List.perm_iff_count]
    intro c
    simp only [List.count_append]
    exact hi.conserve c
  have := hp.length_eq
  simp only [List.length_append] at this
  omega

theorem submitBlocks_iff (s : callAppendPipeline) (hcap : s.pipelineCh.length ≤ rpcMaxPipeline) :
    s.submitBlocks = true ↔ (s.pipelineCh.length = rpcMaxPipeline ∧ s.cancelled = false) := by
  unfold callAppendPipeline.submitBlocks callAppendPipeline.step
  by_cases h1 : s.pipelineCh.length < rpcMaxPipeline
  · simp [h1]; omega
  · have : s.pipelineCh.length = rpcMaxPipeline := by omega
    cases hc : s.cancelled <;> simp [h1, this, hc]

/-- C10 (amended): in every reachable state of a session, a submission made while fewer
than `rpcMaxPipeline` calls have been accepted does not block; a submission blocks exactly
when the submission queue holds `rpcMaxPipeline` calls and the session is not cancelled;
and the number of calls awaiting a response never exceeds `rpcMaxPipeline`. Along a run in
which no response arrives and the session is not cancelled, the accepted calls are those in
the in-flight queue, the one held by the send loop and those in the submission queue, so at
most `2 * rpcMaxPipeline + 1` calls are accepted, and once that many are accepted the next
submission blocks. -/
theorem pipeline_backpressure (sched : List Action) (s : callAppendPipeline)
    (h : newPipeline.run sched = some s) :
    (s.accepted.length < rpcMaxPipeline → s.submitBlocks = false)
    ∧ (s.submitBlocks = true ↔ (s.pipelineCh.length = rpcMaxPipeline ∧ s.cancelled = false))
    ∧ s.awaiting.length ≤ rpcMaxPipeline
    ∧ s.respCh.length ≤ rpcMaxPipeline
    ∧ ((∀ a ∈ sched, a.noResponse = true) → s.cancelled = false →
        s.accepted.length = s.respCh.length + s.held.length + s.pipelineCh.length
        ∧ s.accepted.length ≤ 2 * rpcMaxPipeline + 1
        ∧ (s.accepted.length = 2 * rpcMaxPipeline + 1 → s.submitBlocks = true)) := by
  have hi := reachable_inv sched s h
  have hlen := length_of_conserve s hi
  have hiff := submitBlocks_iff s hi.capPipeline
  have hheld : s.held.length ≤ 1 := by
    unfold callAppendPipeline.held
    split <;> simp
  refine ⟨?_, hiff, ?_, hi.capResp, ?_⟩
  · intro hlt
    cases hb : s.submitBlocks with
    | false => rfl
    | true =>
      have := (hiff.1 hb).1
      omega
  · obtain ⟨tail, ht, _⟩ := hi.queueOrder
    have hl := congrArg List.length ht
    simp only [List.length_append] at hl
    have hcap := hi.capResp
    simp only [callAppendPipeline.awaiting, List.length_drop]
    omega
  · intro hq hc
    have hquiet := run_quiet sched newPipeline s hq h newPipeline_inv newPipeline_quiet
    have hs : s.slots = [] := hquiet.noWrites hc
    have hw : s.written.length = 0 := by simp [callAppendPipeline.written, hs]
    have hcapP := hi.capPipeline
    have hcapR := hi.capResp
    refine ⟨by omega, by omega, ?_⟩
    intro h41
    exact hiff.2 ⟨by omega, hc⟩

/-- Instance of C10 (amended): after `rpcMaxPipeline` submissions with the send loop not
yet run, the next submission blocks. -/
theorem pipeline_backpressure_witness :
    ∃ s, newPipeline.run (List.replicate 20 (.submit 1)) = some s
      ∧ s.submitBlocks = true ∧ s.awaiting.length ≤ rpcMaxPipeline := by
  have hsome : (newPipeline.run (List.replicate 20 (.submit 1))).isSome = true := by decide
  obtain ⟨s, hs⟩ := Option.isSome_iff_exists.1 hsome
  have hfacts : (newPipeline.run (List.replicate 20 (.submit 1))).map
      (fun s => (s.pipelineCh.length, s.cancelled)) = some (20, false) := by decide
  rw [hs] at hfacts
  have hf := Option.some.inj hfacts
  simp only [Prod.mk.injEq] at hf
  have hthm := pipeline_backpressure _ s hs
  exact ⟨s, hs, hthm.2.1.2 ⟨hf.1, hf.2⟩, hthm.2.2.1⟩

/-- C10 as stated fails: `rpcMaxPipeline` calls are submitted and the send loop takes one
of them from the submission queue; no response has arrived and nothing is cancelled. The
next submission does not block, and it is accepted as call number 21. -/
theorem pipeline_submit_past_bound_counterexample :
    (newPipeline.run (List.replicate 20 (.submit 1) ++ [.sendTake])).map
        (fun s => (s.accepted.length, s.received, s.cancelled, s.submitBlocks))
      = some (20, [], false, false)
    ∧ (newPipeline.run (List.replicate 20 (.submit 1) ++ [.sendTake, .submit 1])).map
        (fun s => s.accepted.length) = some 21 := by
  decide

end RaftGrpc
